import Mathlib

set_option maxRecDepth 8000

/-! # Verification of the ADK project detection engine

Shallow embedding of the detection core:
`src/detection/project_detector.rs` (project classifier),
`src/detection/config_detector.rs` (configuration analyzer) and
`src/detection/file_validator.rs` (file validator).

Filesystem state is made explicit: a classifier call receives a `RootDir`
value describing what the relevant system calls would return (which files
exist directly under the root, whether each is readable and with what text,
which marker subdirectories exist, and the recursive listing used by the
size-estimation walk).  Machine integers (`u64` sizes) are modelled as `Nat`;
the source only adds and compares sizes, so no wrap-around is observable.
String scanning is modelled on `List Char` with structural recursion so that
every definition evaluates inside the kernel.
-/

/-! ## String scanning primitives -/

/-- Substring occurrence test on character lists, modelling Rust
`str::contains` (the needle occurs as a contiguous infix). -/
def isInfixOfL (pat : List Char) : List Char → Bool
  | [] => pat.isEmpty
  | c :: rest => pat.isPrefixOf (c :: rest) || isInfixOfL pat rest

/-- Splits a character list at every occurrence of a separator character.
A list with `n` separators yields `n + 1` (possibly empty) segments. -/
def splitOnCharL (sep : Char) : List Char → List (List Char)
  | [] => [[]]
  | c :: rest =>
    if c = sep then [] :: splitOnCharL sep rest
    else
      match splitOnCharL sep rest with
      | [] => [[c]]
      | l :: ls => (c :: l) :: ls

/-- Substring occurrence test with a `String` needle. -/
def strContains (s : List Char) (pat : String) : Bool :=
  isInfixOfL pat.data s

/-- Drops one trailing carriage return, as Rust `str::lines` does on
`\r\n`-terminated lines. -/
def stripTrailingCR (l : List Char) : List Char :=
  if l.getLast? = some '\r' then l.dropLast else l

/-- The lines of a string, modelling Rust `str::lines`: split at `'\n'`,
strip one `'\r'` from each newline-terminated segment, and do not produce
a final empty line for text ending in a newline. -/
def rustLines (s : String) : List (List Char) :=
  let parts := splitOnCharL '\n' s.data
  let front := parts.dropLast.map stripTrailingCR
  match parts.getLast? with
  | some [] => front
  | some l => front ++ [l]
  | none => front

/-! ## Version extraction

`extract_adk_version_from_cargo` (project classifier) and
`extract_adk_version` (configuration analyzer) are two distinct routines in
the source; both scan lines of text. -/

/-- The remainder of a character list after the first occurrence of `pat`,
modelling Rust `str::find` followed by slicing past the needle.  `none` when
the needle does not occur. -/
def afterFirstL (pat : List Char) : List Char → Option (List Char)
  | [] => if pat.isEmpty then some [] else none
  | c :: rest =>
    if pat.isPrefixOf (c :: rest) then some (List.drop pat.length (c :: rest))
    else afterFirstL pat rest

/-- The characters strictly before the first occurrence of a separator
character; `none` when the separator does not occur.  Models
`str::find(char)` plus slicing up to the hit. -/
def upToCharL (sep : Char) : List Char → Option (List Char)
  | [] => none
  | c :: rest => if c = sep then some [] else (upToCharL sep rest).map (c :: ·)

/-- The characters strictly before the first double quote; `none` when the
list holds no double quote.  Models `line[start..].find('"')` plus slicing. -/
def upToQuoteL (l : List Char) : Option (List Char) :=
  upToCharL '\"' l

/-- The characters strictly before the first occurrence of a (string)
needle; `none` when the needle does not occur.  Models `str::find(&str)`
plus slicing up to the hit, and the first segment of `str::split`. -/
def upToStrL (pat : List Char) : List Char → Option (List Char)
  | [] => if pat.isEmpty then some [] else none
  | c :: rest =>
    if pat.isPrefixOf (c :: rest) then some []
    else (upToStrL pat rest).map (c :: ·)

/-- Both-ends whitespace trim on a character list, modelling `str::trim`. -/
def trimL (l : List Char) : List Char :=
  ((l.dropWhile Char.isWhitespace).reverse.dropWhile Char.isWhitespace).reverse

/-- ASCII lowercasing, modelling `str::to_lowercase` on the ASCII marker and
extension strings the validator compares. -/
def toLowerStr (s : String) : String := ⟨s.data.map Char.toLower⟩

/-- The needle `version = "` searched for by the Cargo version extractor. -/
def versionQuotePat : List Char := "version = \"".data

/-- Line loop of `AdkProjectDetector::extract_adk_version_from_cargo`: on the
first line mentioning `google-adk` or `adk-core` that holds `version = "`
followed later by a closing quote, return the text between; otherwise keep
scanning. -/
def extract_adk_version_from_cargo_go : List (List Char) → Option String
  | [] => none
  | line :: rest =>
    if strContains line "google-adk" || strContains line "adk-core" then
      match afterFirstL versionQuotePat line with
      | some r =>
        match upToQuoteL r with
        | some v => some ⟨v⟩
        | none => extract_adk_version_from_cargo_go rest
      | none => extract_adk_version_from_cargo_go rest
    else extract_adk_version_from_cargo_go rest

/-- `AdkProjectDetector::extract_adk_version_from_cargo`. -/
def extract_adk_version_from_cargo (content : String) : Option String :=
  extract_adk_version_from_cargo_go (rustLines content)

/-- Model of Rust `char::is_numeric`; the detection engine only ever meets
ASCII digits, which this captures exactly. -/
def charIsNumeric (c : Char) : Bool := c.isDigit

/-- The first double-quoted substring of a line: the text between the first
and the second quote, `none` when the line has fewer than two quotes. -/
def firstQuotedL (line : List Char) : Option (List Char) :=
  match splitOnCharL '\"' line with
  | _ :: v :: _ :: _ => some v
  | _ => none

/-- Line loop of `AdkConfigDetector::extract_adk_version`: on a line holding
both `google-adk` and `version`, take the first quoted substring; return it
when it is nonempty and starts with a numeric character, otherwise keep
scanning later lines. -/
def extract_adk_version_go : List (List Char) → Option String
  | [] => none
  | line :: rest =>
    if strContains line "google-adk" && strContains line "version" then
      match firstQuotedL line with
      | some v =>
        if v ≠ [] ∧ charIsNumeric (v.headD 'A') then some ⟨v⟩
        else extract_adk_version_go rest
      | none => extract_adk_version_go rest
    else extract_adk_version_go rest

/-- `AdkConfigDetector::extract_adk_version`. -/
def extract_adk_version (content : String) : Option String :=
  extract_adk_version_go (rustLines content)

/-! ## Project classifier (`project_detector.rs`) -/

/-- `AdkProjectType`: the classification verdict. -/
inductive AdkProjectType where
  | RustAdk
  | PythonAdk
  | McpAdkServer
  | Mixed
  | None
deriving DecidableEq, Repr

/-- `AdkProjectInfo` (the immutable `root_path` field is kept implicit: the
model passes the root value itself wherever the source re-opens files under
`root_path`). -/
structure AdkProjectInfo where
  project_type : AdkProjectType
  has_cargo_toml : Bool
  has_requirements_txt : Bool
  has_adk_dependencies : Bool
  has_adk_config : Bool
  estimated_size : Nat
  adk_version : Option String
deriving DecidableEq, Repr

/-- `AdkProjectDetector`: the fixed marker configuration. -/
structure AdkProjectDetector where
  max_file_size : Nat
  adk_rust_dependencies : List String
  adk_python_dependencies : List String
deriving DecidableEq, Repr

/-- `AdkProjectDetector::default()`. -/
def AdkProjectDetector.default : AdkProjectDetector where
  max_file_size := 50 * 1024 * 1024
  adk_rust_dependencies :=
    ["google-adk", "google-cloud-adk", "adk-core", "adk-runtime",
     "google-genai", "vertexai", "rmcp"]
  adk_python_dependencies :=
    ["google-adk", "google-cloud-adk", "google-genai", "vertexai",
     "google-cloud-aiplatform", "adk-agents"]

/-- A recursive directory listing as the size-estimation walk observes it:
an ordered sequence of entries, where each directory entry carries its own
listing.  `unlistable` stands for a directory whose `read_dir` fails. -/
inductive Listing where
  | unlistable : Listing
  | nil : Listing
  | file (name : String) (size : Nat) (rest : Listing) : Listing
  | dir (name : String) (sub : Listing) (rest : Listing) : Listing
deriving DecidableEq, Repr

/-- What the classifier observes at a candidate root: the files directly
under the root (`none` content = present but unreadable), which marker
subdirectory paths exist, and the recursive listing used by the size walk. -/
structure RootDir where
  files : List (String × Option String)
  dirs : List String
  tree : Listing
deriving DecidableEq, Repr

/-- Existence / readability probe for one file directly under the root:
`none` = absent, `some none` = present but unreadable, `some (some c)` =
present with text `c`. -/
def findFile (r : RootDir) (name : String) : Option (Option String) :=
  (r.files.find? (fun p => p.1 == name)).map (fun p => p.2)

/-- The build/cache directory names skipped by the size walk (and by the
project finder). -/
def skipDirNames : List String :=
  ["target", "node_modules", ".git", "__pycache__", ".venv"]

/-- `visit_dir` of `AdkProjectDetector::estimate_project_size`, folded over a
`Listing`.  Entering a directory whose running total already exceeds the cap
returns at once (even when that directory is unlistable); otherwise an
unlistable directory is a propagated error.  Entries named in
`skipDirNames` are skipped, files add their size. -/
def visit_dir : Listing → Nat → Nat → Except Unit Nat
  | .unlistable, total, maxSize =>
      if total > maxSize then .ok total else .error ()
  | .nil, total, _ => .ok total
  | .file name size rest, total, maxSize =>
      if skipDirNames.contains name then visit_dir rest total maxSize
      else visit_dir rest (total + size) maxSize
  | .dir name sub rest, total, maxSize =>
      if skipDirNames.contains name then visit_dir rest total maxSize
      else
        match (if total > maxSize then Except.ok total
               else visit_dir sub total maxSize : Except Unit Nat) with
        | .error e => .error e
        | .ok t => visit_dir rest t maxSize

/-- `AdkProjectDetector::estimate_project_size`. -/
def estimate_project_size (d : AdkProjectDetector) (r : RootDir) :
    Except Unit Nat :=
  visit_dir r.tree 0 d.max_file_size

/-- `AdkProjectDetector::check_rust_adk_dependencies`. -/
def check_rust_adk_dependencies (d : AdkProjectDetector) (content : String) :
    Bool :=
  d.adk_rust_dependencies.any (fun dep => strContains content.data dep)

/-- `AdkProjectDetector::check_python_adk_dependencies`. -/
def check_python_adk_dependencies (d : AdkProjectDetector) (content : String) :
    Bool :=
  d.adk_python_dependencies.any (fun dep => strContains content.data dep)

/-- The fixed root-level config filenames probed by
`check_adk_config_files`. -/
def adkConfigFileNames : List String :=
  [".env", ".env.template", "adk.toml", "adk-config.json",
   "vertex-config.json", "google-cloud-config.json"]

/-- The fixed marker subdirectory names probed by
`check_adk_config_files`. -/
def adkDirectoryNames : List String :=
  ["multi_tool_agent", "adk_agents", "src/expert", "src/review"]

/-- Content test of `check_adk_config_files`. -/
def configContentHasAdkMarker (content : String) : Bool :=
  strContains content.data "GOOGLE_API_KEY" ||
  strContains content.data "VERTEXAI" ||
  strContains content.data "ADK" ||
  strContains content.data "google-genai"

/-- `AdkProjectDetector::check_adk_config_files`: a readable root-level
config file with an ADK marker, or a marker subdirectory, both count.
Read failures are swallowed (the file then counts for nothing). -/
def check_adk_config_files (r : RootDir) : Bool :=
  adkConfigFileNames.any (fun name =>
    match findFile r name with
    | some (some content) => configContentHasAdkMarker content
    | _ => false) ||
  adkDirectoryNames.any (fun dirName => r.dirs.contains dirName)

/-- `AdkProjectDetector::determine_project_type`.  The `(true, false)`
branch re-reads `Cargo.toml` from the root to look for an MCP dependency
marker. -/
def determine_project_type (r : RootDir) (info : AdkProjectInfo) :
    AdkProjectType :=
  let has_rust := info.has_cargo_toml
  let has_python := info.has_requirements_txt
  let has_adk := info.has_adk_dependencies || info.has_adk_config
  if has_adk = false then .None
  else
    match has_rust, has_python with
    | true, true => .Mixed
    | true, false =>
      match findFile r "Cargo.toml" with
      | some (some cargo_content) =>
        if strContains cargo_content.data "rmcp" ||
           strContains cargo_content.data "mcp" then .McpAdkServer
        else .RustAdk
      | _ => .RustAdk
    | false, true => .PythonAdk
    | false, false =>
      if info.has_adk_config then .PythonAdk else .None

/-- `AdkProjectDetector::detect_adk_project`.  `setup.py` existence changes
nothing observable (the source only gates on it together with
`requirements.txt`, and `has_requirements_txt` and the dependency scan both
key on `requirements.txt` alone), so it is not part of the model state.
Unreadable manifests are swallowed (`if let Ok`) and leave their fields at
the defaults; a failing size walk is propagated as the call's error. -/
def detect_adk_project (d : AdkProjectDetector) (r : RootDir) :
    Except Unit AdkProjectInfo :=
  let cargo := findFile r "Cargo.toml"
  let has_cargo := cargo.isSome
  let depsAfterCargo :=
    match cargo with
    | some (some c) => check_rust_adk_dependencies d c
    | _ => false
  let versionAfterCargo :=
    match cargo with
    | some (some c) => extract_adk_version_from_cargo c
    | _ => none
  let req := findFile r "requirements.txt"
  let has_req := req.isSome
  let deps :=
    match req with
    | some (some c) => depsAfterCargo || check_python_adk_dependencies d c
    | _ => depsAfterCargo
  let cfg := check_adk_config_files r
  match estimate_project_size d r with
  | .error e => .error e
  | .ok size =>
    let info : AdkProjectInfo :=
      { project_type := .None
        has_cargo_toml := has_cargo
        has_requirements_txt := has_req
        has_adk_dependencies := deps
        has_adk_config := cfg
        estimated_size := size
        adk_version := versionAfterCargo }
    .ok { info with project_type := determine_project_type r info }

/-! ## Configuration analyzer (`config_detector.rs`) -/

/-- `ConfigType`. -/
inductive ConfigType where
  | Environment
  | CargoToml
  | Requirements
  | PythonBuild
  | Json
  | Yaml
  | Toml
  | McpConfig
  | Unknown
deriving DecidableEq, Repr

/-- `ConfigFileInfo`. -/
structure ConfigFileInfo where
  path : String
  config_type : ConfigType
  contains_adk_settings : Bool
  detected_settings : List String
deriving DecidableEq, Repr

/-- `AdkConfigInfo`.  The `environment_variables` hash map is modelled as an
association list with insert-or-replace semantics. -/
structure AdkConfigInfo where
  config_files : List ConfigFileInfo
  has_adk_config : Bool
  adk_version : Option String
  google_api_configured : Bool
  vertex_ai_configured : Bool
  mcp_server_configured : Bool
  environment_variables : List (String × String)
deriving DecidableEq, Repr

/-- `AdkConfigDetector`: the fixed marker lists. -/
structure AdkConfigDetector where
  adk_env_vars : List String
  adk_config_keys : List String
  google_api_patterns : List String
  vertex_ai_patterns : List String
deriving DecidableEq, Repr

/-- `AdkConfigDetector::default()`. -/
def AdkConfigDetector.default : AdkConfigDetector where
  adk_env_vars :=
    ["GOOGLE_API_KEY", "GOOGLE_APPLICATION_CREDENTIALS",
     "GOOGLE_GENAI_USE_VERTEXAI", "VERTEXAI_PROJECT", "VERTEXAI_LOCATION",
     "ADK_VERSION", "ADK_DOCS_VERSION", "RUST_LOG"]
  adk_config_keys :=
    ["google-adk", "google-genai", "vertexai", "adk-core", "adk-runtime",
     "rmcp", "arkaft-mcp-google-adk"]
  google_api_patterns :=
    ["GOOGLE_API_KEY", "google_api_key", "googleApiKey",
     "GOOGLE_APPLICATION_CREDENTIALS", "google-cloud"]
  vertex_ai_patterns :=
    ["VERTEXAI", "vertex_ai", "vertexAi", "GOOGLE_GENAI_USE_VERTEXAI",
     "vertex-ai"]

/-- What the configuration analyzer observes at a project root: the files
probed by the fixed pattern list (relative path, `none` content = present
but unreadable) and the shallow listings of the three scanned
subdirectories (`none` listing = `read_dir` failure, which the source
swallows). -/
structure ConfigRoot where
  files : List (String × Option String)
  subdirs : List (String × Option (List (String × Option String)))
deriving DecidableEq, Repr

/-- File probe at a config root (same convention as `findFile`). -/
def findConfigFile (cr : ConfigRoot) (name : String) : Option (Option String) :=
  (cr.files.find? (fun p => p.1 == name)).map (fun p => p.2)

/-- The fixed relative paths probed by `find_config_files`. -/
def configFilePatterns : List String :=
  [".env", ".env.template", ".env.local", ".env.production",
   ".env.development", "Cargo.toml", "requirements.txt", "setup.py",
   "pyproject.toml", "config.json", "config.yaml", "config.yml",
   "config.toml", "adk.toml", "adk-config.json", "vertex-config.json",
   "google-cloud-config.json", "mcp.json", ".kiro/settings/mcp.json"]

/-- The subdirectories shallow-scanned by `find_config_files`. -/
def configScanSubdirs : List String := ["src", "config", ".kiro/settings"]

/-- The last `/`-separated component of a relative path, modelling
`Path::file_name`. -/
def fileNameOf (path : String) : String :=
  ⟨(splitOnCharL '/' path.data).getLastD []⟩

/-- Rust `Path::extension` on a file name: the text after the last dot,
except that a name with no dot, or a leading-dot name with no further dot,
has no extension. -/
def rustExtension (filename : String) : Option String :=
  match splitOnCharL '.' filename.data with
  | [] => none
  | [_] => none
  | [[], _] => none
  | parts => some ⟨parts.getLastD []⟩

/-- `AdkConfigDetector::is_config_file`: extension on the fixed list, or the
lowercased name holding one of the fixed keyword substrings.  The source
takes `filename.split('.').last()` as the extension here (so a dotless name
is its own "extension"). -/
def is_config_file (filename : String) : Bool :=
  let lastSeg : String := ⟨(splitOnCharL '.' filename.data).getLastD []⟩
  ["json", "yaml", "yml", "toml", "env"].contains lastSeg ||
  ["config", "settings", "adk", "vertex", "google"].any
    (fun n => strContains (toLowerStr filename).data n)

/-- `AdkConfigDetector::find_config_files`: the fixed pattern probes in
order, then the shallow subdirectory scans in order, keeping files whose
name passes `is_config_file`.  Each discovered file is paired with its
readability/content observation. -/
def find_config_files (cr : ConfigRoot) : List (String × Option String) :=
  configFilePatterns.filterMap (fun pat =>
    (findConfigFile cr pat).map (fun content => (pat, content))) ++
  (configScanSubdirs.map (fun sd =>
    match (cr.subdirs.find? (fun q => q.1 == sd)).map (fun q => q.2) with
    | some (some entries) =>
      entries.filterMap (fun e =>
        if is_config_file e.1 then some (sd ++ "/" ++ e.1, e.2) else none)
    | _ => [])).flatten

/-- `AdkConfigDetector::determine_config_type`: exact special names first,
then the `.env` prefix, then the (lowercased) extension. -/
def determine_config_type (path : String) : ConfigType :=
  let filename := fileNameOf path
  if filename = "Cargo.toml" then .CargoToml
  else if filename = "requirements.txt" then .Requirements
  else if filename = "setup.py" ∨ filename = "pyproject.toml" then .PythonBuild
  else if filename = "mcp.json" then .McpConfig
  else if ".env".data.isPrefixOf filename.data then .Environment
  else
    match rustExtension filename with
    | some ext =>
      match toLowerStr ext with
      | "json" => .Json
      | "yaml" => .Yaml
      | "yml" => .Yaml
      | "toml" => .Toml
      | _ => .Unknown
    | none => .Unknown

/-- The pure body of `AdkConfigDetector::analyze_config_file` once the file
content has been read: one tagged `detected_settings` entry per marker hit,
in the source's category order, with `contains_adk_settings` set on any
hit. -/
def analyze_config_content (d : AdkConfigDetector) (path content : String) :
    ConfigFileInfo :=
  let hits :=
    (d.adk_env_vars.filter (fun v => strContains content.data v)).map
      (fun v => "env:" ++ v) ++
    (d.adk_config_keys.filter (fun v => strContains content.data v)).map
      (fun v => "key:" ++ v) ++
    (d.google_api_patterns.filter (fun v => strContains content.data v)).map
      (fun v => "google:" ++ v) ++
    (d.vertex_ai_patterns.filter (fun v => strContains content.data v)).map
      (fun v => "vertex:" ++ v)
  { path := path
    config_type := determine_config_type path
    contains_adk_settings := !hits.isEmpty
    detected_settings := hits }

/-- `AdkConfigDetector::analyze_config_file`: reading an unreadable file is
a propagated error (`fs::read_to_string(..)?`). -/
def analyze_config_file (d : AdkConfigDetector) (path : String)
    (content : Option String) : Except Unit ConfigFileInfo :=
  match content with
  | none => .error ()
  | some c => .ok (analyze_config_content d path c)

/-- Insert-or-replace on the association-list model of the environment-
variable hash map. -/
def envInsert (m : List (String × String)) (k v : String) :
    List (String × String) :=
  if m.any (fun p => p.1 == k) then
    m.map (fun p => if p.1 == k then (k, v) else p)
  else m ++ [(k, v)]

/-- One line of `AdkConfigDetector::extract_env_variables`: trim, skip
blanks and `#` comments, split at the first `=`, keep the trimmed key/value
only when the key is on the fixed allow-list. -/
def extract_env_line (d : AdkConfigDetector) (m : List (String × String))
    (line : List Char) : List (String × String) :=
  let t := trimL line
  if t.isEmpty then m
  else if t.headD ' ' = '#' then m
  else
    match upToCharL '=' t, afterFirstL ['='] t with
    | some rawKey, some rawValue =>
      let key : String := ⟨trimL rawKey⟩
      let value : String := ⟨trimL rawValue⟩
      if d.adk_env_vars.contains key then envInsert m key value else m
    | _, _ => m

/-- `AdkConfigDetector::extract_env_variables`: the line loop over `.env`
content, accumulating into the existing map. -/
def extract_env_variables (d : AdkConfigDetector) (content : String)
    (m : List (String × String)) : List (String × String) :=
  (rustLines content).foldl (extract_env_line d) m

/-- `AdkConfigDetector::extract_config_details`: a file whose analysis found
no ADK settings contributes nothing; otherwise the version is kept on first
success, the three integration flags are or-ed in, and Environment-typed
files feed the environment-variable map. -/
def extract_config_details (d : AdkConfigDetector) (fi : ConfigFileInfo)
    (content : String) (ci : AdkConfigInfo) : AdkConfigInfo :=
  if fi.contains_adk_settings = false then ci
  else
    let version :=
      match ci.adk_version with
      | none => extract_adk_version content
      | some v => some v
    let google := ci.google_api_configured ||
      d.google_api_patterns.any (fun p => strContains content.data p)
    let vertex := ci.vertex_ai_configured ||
      d.vertex_ai_patterns.any (fun p => strContains content.data p)
    let mcp := ci.mcp_server_configured ||
      (strContains content.data "rmcp" ||
       strContains content.data "arkaft-mcp-google-adk" ||
       strContains content.data "mcpServers")
    let envs :=
      if fi.config_type = ConfigType.Environment then
        extract_env_variables d content ci.environment_variables
      else ci.environment_variables
    { ci with
        adk_version := version
        google_api_configured := google
        vertex_ai_configured := vertex
        mcp_server_configured := mcp
        environment_variables := envs }

/-- The per-file loop of `AdkConfigDetector::detect_adk_config`: analyze
(propagating a read failure), fold the aggregate flags, extract details,
append the file record.  The source's second read of the same file inside
`extract_config_details` sees the same snapshot content. -/
def detect_adk_config_go (d : AdkConfigDetector) :
    List (String × Option String) → AdkConfigInfo → Except Unit AdkConfigInfo
  | [], ci => .ok ci
  | (_, none) :: _, _ => .error ()
  | (path, some content) :: rest, ci =>
    let fi := analyze_config_content d path content
    let ci1 := if fi.contains_adk_settings then
      { ci with has_adk_config := true } else ci
    let ci2 := extract_config_details d fi content ci1
    let ci3 := { ci2 with config_files := ci2.config_files ++ [fi] }
    detect_adk_config_go d rest ci3

/-- The all-false/empty starting aggregate of `detect_adk_config`. -/
def emptyConfigInfo : AdkConfigInfo :=
  { config_files := []
    has_adk_config := false
    adk_version := none
    google_api_configured := false
    vertex_ai_configured := false
    mcp_server_configured := false
    environment_variables := [] }

/-- `AdkConfigDetector::detect_adk_config`. -/
def detect_adk_config (d : AdkConfigDetector) (cr : ConfigRoot) :
    Except Unit AdkConfigInfo :=
  detect_adk_config_go d (find_config_files cr) emptyConfigInfo

/-! ## File validator (`file_validator.rs`) -/

/-- `FileType`. -/
inductive FileType where
  | Rust
  | Python
  | Config
  | Documentation
  | Environment
  | Build
  | Unknown
deriving DecidableEq, Repr

/-- `FileValidationResult`. -/
structure FileValidationResult where
  path : String
  is_valid : Bool
  file_size : Nat
  file_type : FileType
  reason : Option String
deriving DecidableEq, Repr

/-- `FileValidator`: the size bounds and the fixed lists. -/
structure FileValidator where
  max_file_size : Nat
  min_file_size : Nat
  allowed_extensions : List String
  excluded_patterns : List String
deriving DecidableEq, Repr

/-- The default exclusion pattern list. -/
def defaultExcludedPatterns : List String :=
  ["target/**", "build/**", "dist/**", "node_modules/**", ".venv/**",
   "__pycache__/**", ".git/**", ".svn/**", ".vscode/**", ".idea/**",
   "*.tmp", "*.temp", "*.log", "*.bak"]

/-- `FileValidator::default()`. -/
def FileValidator.default : FileValidator where
  max_file_size := 50 * 1024 * 1024
  min_file_size := 1
  allowed_extensions :=
    ["rs", "py", "pyi", "toml", "json", "yaml", "yml", "md", "rst", "txt"]
  excluded_patterns := defaultExcludedPatterns

/-- `FileValidator::for_code_review()`. -/
def FileValidator.for_code_review : FileValidator where
  max_file_size := 1024 * 1024
  min_file_size := 10
  allowed_extensions := ["rs", "py"]
  excluded_patterns := defaultExcludedPatterns

/-- `FileValidator::for_config_files()`. -/
def FileValidator.for_config_files : FileValidator where
  max_file_size := 10 * 1024
  min_file_size := 1
  allowed_extensions := ["toml", "json", "yaml", "yml"]
  excluded_patterns := defaultExcludedPatterns

/-- What `validate_file` observes about one path: existence, whether it is a
regular file, and the metadata size (`none` = the `fs::metadata` call
fails, which the source propagates as an error). -/
structure FileInput where
  path : String
  pathExists : Bool
  isFile : Bool
  meta : Option Nat
deriving DecidableEq, Repr

/-- `FileValidator::determine_file_type`: exact special names first, then
the lowercased extension. -/
def determine_file_type (path : String) : FileType :=
  let filename := fileNameOf path
  if ["Cargo.toml", "Cargo.lock", "requirements.txt", "setup.py",
      "pyproject.toml"].contains filename then .Build
  else if [".env", ".env.template", ".env.local",
           ".env.production"].contains filename then .Environment
  else if ["README.md", "CHANGELOG.md", "LICENSE",
           "CONTRIBUTING.md"].contains filename then .Documentation
  else
    match rustExtension filename with
    | some ext =>
      match toLowerStr ext with
      | "rs" => .Rust
      | "py" => .Python
      | "pyi" => .Python
      | "toml" => .Config
      | "json" => .Config
      | "yaml" => .Config
      | "yml" => .Config
      | "md" => .Documentation
      | "rst" => .Documentation
      | "txt" => .Documentation
      | _ => .Unknown
    | none => .Unknown

/-- `FileValidator::is_allowed_file_type`: fixed extensionless special names
first, then the lowercased extension against the allow-list. -/
def is_allowed_file_type (v : FileValidator) (path : String) : Bool :=
  let filename := fileNameOf path
  if ["Cargo.toml", "requirements.txt", "setup.py", ".env",
      ".env.template"].contains filename then true
  else
    match rustExtension filename with
    | some ext => v.allowed_extensions.contains (toLowerStr ext)
    | none => false

/-- `FileValidator::matches_pattern`: coarse glob emulation.  A `**` pattern
matches by containment of its prefix part, a `*.`-pattern by suffix match of
the text after `*.`, anything else by plain containment. -/
def matches_pattern (path pattern : String) : Bool :=
  if strContains pattern.data "**" then
    strContains path.data ⟨(upToStrL "**".data pattern.data).getD []⟩
  else if "*.".data.isPrefixOf pattern.data then
    (pattern.data.drop 2).isSuffixOf path.data
  else
    strContains path.data pattern

/-- `FileValidator::is_excluded_file`. -/
def is_excluded_file (v : FileValidator) (path : String) : Bool :=
  v.excluded_patterns.any (fun pat => matches_pattern path pat)

/-- `FileValidator::validate_file`: the check chain in source order —
existence, regular file, metadata (propagated error), exclusion patterns,
minimum size, maximum size, allowed type — first failure wins. -/
def validate_file (v : FileValidator) (f : FileInput) :
    Except Unit FileValidationResult :=
  if f.pathExists = false then
    .ok ⟨f.path, false, 0, .Unknown, some "File does not exist"⟩
  else if f.isFile = false then
    .ok ⟨f.path, false, 0, .Unknown, some "Path is not a file"⟩
  else
    match f.meta with
    | none => .error ()
    | some file_size =>
      let file_type := determine_file_type f.path
      if is_excluded_file v f.path then
        .ok ⟨f.path, false, file_size, file_type,
             some "File matches excluded pattern"⟩
      else if file_size < v.min_file_size then
        .ok ⟨f.path, false, file_size, file_type,
             some ("File too small: " ++ toString file_size ++ " bytes")⟩
      else if v.max_file_size < file_size then
        .ok ⟨f.path, false, file_size, file_type,
             some ("File too large: " ++ toString file_size ++
                   " bytes (max: " ++ toString v.max_file_size ++ ")")⟩
      else if is_allowed_file_type v f.path = false then
        .ok ⟨f.path, false, file_size, file_type, some "File type not allowed"⟩
      else
        .ok ⟨f.path, true, file_size, file_type, none⟩

/-- `FileValidator::validate_files`: per-item error isolation — a failing
item becomes an invalid result with an error-derived reason. -/
def validate_files (v : FileValidator) (fs : List FileInput) :
    List FileValidationResult :=
  fs.map (fun f =>
    match validate_file v f with
    | .ok r => r
    | .error _ =>
      ⟨f.path, false, 0, .Unknown,
       some ("Validation error: Failed to get metadata for " ++ f.path)⟩)

/-! ## Concrete sample inputs used by witnesses and counterexamples -/

/-- A root whose Cargo.toml carries both an ADK and an MCP dependency
marker, with no requirements manifest. -/
def mcpCargoRoot : RootDir :=
  { files := [("Cargo.toml",
      some "[dependencies]\nrmcp = \"0.6.3\"\ngoogle-adk = \"1.0\"")]
    dirs := []
    tree := Listing.nil }

/-- The classifier output on `mcpCargoRoot`. -/
def mcpCargoInfo : AdkProjectInfo :=
  { project_type := AdkProjectType.McpAdkServer
    has_cargo_toml := true
    has_requirements_txt := false
    has_adk_dependencies := true
    has_adk_config := false
    estimated_size := 0
    adk_version := none }

/-- A root with no manifest at all but a marker subdirectory. -/
def configOnlyRoot : RootDir :=
  { files := [], dirs := ["adk_agents"], tree := Listing.nil }

/-- The classifier output on `configOnlyRoot`. -/
def configOnlyInfo : AdkProjectInfo :=
  { project_type := AdkProjectType.PythonAdk
    has_cargo_toml := false
    has_requirements_txt := false
    has_adk_dependencies := false
    has_adk_config := true
    estimated_size := 0
    adk_version := none }

/-- A root whose only entry is a subdirectory that cannot be listed. -/
def unlistableSubdirRoot : RootDir :=
  { files := [], dirs := [], tree := Listing.dir "sub" Listing.unlistable Listing.nil }

/-- A root whose manifests exist but cannot be read. -/
def unreadableManifestsRoot : RootDir :=
  { files := [("Cargo.toml", none), ("requirements.txt", none)]
    dirs := []
    tree := Listing.nil }

/-- A config root whose `.env` holds one allow-listed and one foreign key. -/
def secretEnvRoot : ConfigRoot :=
  { files := [(".env", some "GOOGLE_API_KEY=abc\nSECRET=zzz")], subdirs := [] }

/-- The analyzer output on `secretEnvRoot`. -/
def secretEnvInfo : AdkConfigInfo :=
  { config_files := [{ path := ".env"
                       config_type := ConfigType.Environment
                       contains_adk_settings := true
                       detected_settings :=
                         ["env:GOOGLE_API_KEY", "google:GOOGLE_API_KEY"] }]
    has_adk_config := true
    adk_version := none
    google_api_configured := true
    vertex_ai_configured := false
    mcp_server_configured := false
    environment_variables := [("GOOGLE_API_KEY", "abc")] }

/-- A config root whose `.env` exists but cannot be read. -/
def unreadableEnvRoot : ConfigRoot :=
  { files := [(".env", none)], subdirs := [] }

/-- A config root whose only config file mentions `mcpServers` and no ADK
marker at all. -/
def mcpOnlyRoot : ConfigRoot :=
  { files := [("mcp.json", some "only mcpServers here")], subdirs := [] }

/-! ## Helper lemmas -/

/-- `isInfixOfL` decides contiguous-sublist occurrence. -/
theorem isInfixOfL_iff_infix {pat l : List Char} :
    isInfixOfL pat l = true ↔ pat <:+: l := by
  induction l with
  | nil => simp [isInfixOfL, List.isEmpty_iff, List.infix_nil]
  | cons c rest ih =>
    simp [isInfixOfL, List.infix_cons_iff, ih, List.isPrefixOf_iff_prefix]

/-- Any text holding `rmcp` also holds `mcp`. -/
theorem strContains_mcp_of_rmcp {s : List Char}
    (h : strContains s "rmcp" = true) : strContains s "mcp" = true := by
  rw [strContains, isInfixOfL_iff_infix] at h ⊢
  exact List.IsInfix.trans (by decide) h

/-- A string with a nonempty left part of an append is nonempty. -/
theorem append_length_pos {a : String} (b : String) (h : 0 < a.length) :
    0 < (a ++ b).length := by
  rw [String.length_append]
  omega

/-- The analyzer's version extractor only ever returns a nonempty token
whose first character is numeric. -/
theorem extract_adk_version_go_digit :
    ∀ (ls : List (List Char)) (v : String),
      extract_adk_version_go ls = some v →
      v.data ≠ [] ∧ charIsNumeric (v.data.headD 'A') = true := by
  intro ls
  induction ls with
  | nil => intro v h; simp [extract_adk_version_go] at h
  | cons line rest ih =>
    intro v h
    rw [extract_adk_version_go] at h
    split at h
    · cases hq : firstQuotedL line with
      | none => rw [hq] at h; exact ih v h
      | some w =>
        rw [hq] at h
        dsimp only at h
        by_cases hcnd : w ≠ [] ∧ charIsNumeric (w.headD 'A') = true
        · rw [if_pos hcnd] at h
          injection h with h2
          subst h2
          exact ⟨hcnd.1, hcnd.2⟩
        · rw [if_neg hcnd] at h
          exact ih v h
    · exact ih v h

/-- Every key of an environment map lies on the detector's allow-list. -/
def EnvKeysAllowed (d : AdkConfigDetector) (m : List (String × String)) : Prop :=
  ∀ p ∈ m, p.1 ∈ d.adk_env_vars

/-- `envInsert` preserves the allow-list invariant when the inserted key is
allowed. -/
theorem envInsert_allowed {d : AdkConfigDetector} {m : List (String × String)}
    {k v : String} (hm : EnvKeysAllowed d m) (hk : k ∈ d.adk_env_vars) :
    EnvKeysAllowed d (envInsert m k v) := by
  intro p hp
  rw [envInsert] at hp
  split at hp
  · obtain ⟨q, hq, hpq⟩ := List.mem_map.mp hp
    by_cases hqk : (q.1 == k) = true
    · rw [if_pos hqk] at hpq
      subst hpq
      exact hk
    · rw [if_neg hqk] at hpq
      subst hpq
      exact hm q hq
  · rcases List.mem_append.mp hp with h | h
    · exact hm p h
    · rw [List.mem_singleton] at h
      subst h
      exact hk

/-- One `.env` line preserves the allow-list invariant: it only ever inserts
a key that passed the membership check. -/
theorem extract_env_line_allowed {d : AdkConfigDetector}
    {m : List (String × String)} (line : List Char)
    (hm : EnvKeysAllowed d m) :
    EnvKeysAllowed d (extract_env_line d m line) := by
  rw [extract_env_line]
  split
  · exact hm
  · split
    · exact hm
    · split
      · dsimp only
        split
        next hc => exact envInsert_allowed hm (by simpa using hc)
        next => exact hm
      · exact hm

/-- The `.env` line loop preserves the allow-list invariant. -/
theorem extract_env_variables_allowed {d : AdkConfigDetector}
    {content : String} {m : List (String × String)}
    (hm : EnvKeysAllowed d m) :
    EnvKeysAllowed d (extract_env_variables d content m) := by
  rw [extract_env_variables]
  generalize rustLines content = ls
  induction ls generalizing m with
  | nil => simpa using hm
  | cons line rest ih =>
    rw [List.foldl_cons]
    exact ih (extract_env_line_allowed line hm)

/-- `extract_config_details` preserves the allow-list invariant. -/
theorem extract_config_details_allowed {d : AdkConfigDetector}
    {fi : ConfigFileInfo} {content : String} {ci : AdkConfigInfo}
    (hm : EnvKeysAllowed d ci.environment_variables) :
    EnvKeysAllowed d
      (extract_config_details d fi content ci).environment_variables := by
  rw [extract_config_details]
  split
  · exact hm
  · dsimp only
    split
    · exact extract_env_variables_allowed hm
    · exact hm

/-- The per-file loop of `detect_adk_config` preserves the allow-list
invariant through to its result. -/
theorem detect_adk_config_go_allowed {d : AdkConfigDetector} :
    ∀ (files : List (String × Option String)) (ci info : AdkConfigInfo),
      EnvKeysAllowed d ci.environment_variables →
      detect_adk_config_go d files ci = .ok info →
      EnvKeysAllowed d info.environment_variables := by
  intro files
  induction files with
  | nil =>
    intro ci info hm h
    rw [detect_adk_config_go] at h
    injection h with h2
    subst h2
    exact hm
  | cons pc rest ih =>
    intro ci info hm h
    obtain ⟨path, content⟩ := pc
    cases content with
    | none => rw [detect_adk_config_go] at h; cases h
    | some c =>
      rw [detect_adk_config_go] at h
      refine ih _ info ?_ h
      show EnvKeysAllowed d
        (extract_config_details d (analyze_config_content d path c) c
          (if (analyze_config_content d path c).contains_adk_settings then
            { ci with has_adk_config := true } else ci)).environment_variables
      refine extract_config_details_allowed ?_
      split
      · exact hm
      · exact hm

/-! ## Claims -/

/-- Claim C4, counterexample: the project classifier's build-descriptor
version extractor returns the token after `version = "` with no digit
check, so on the line `google-adk version = "abc"` it returns `"abc"`,
whose first character is not a digit — against the claimed rule, under
which a returned token always begins with a digit. -/
theorem C4_counterexample_cargo_nondigit :
    extract_adk_version_from_cargo "google-adk version = \"abc\"" =
      some "abc" ∧
    charIsNumeric ("abc".data.headD 'A') = false := by
  exact ⟨rfl, rfl⟩

/-- Claim C4 (amended): the configuration analyzer's `extract_adk_version`
follows the digit rule — any token it returns is nonempty and begins with a
numeric character — while the project classifier's
`extract_adk_version_from_cargo` takes the text between `version = "` and
the next quote on the first `google-adk`/`adk-core` line without a digit
requirement (witnessed concretely by a non-digit token it returns). -/
theorem C4_version_rule_amended :
    (∀ (content v : String), extract_adk_version content = some v →
      v.data ≠ [] ∧ charIsNumeric (v.data.headD 'A') = true) ∧
    extract_adk_version_from_cargo "google-adk version = \"abc\"" =
      some "abc" := by
  constructor
  · intro content v h
    exact extract_adk_version_go_digit (rustLines content) v h
  · rfl

/-- Claim C4 witness: the digit guarantee applied to the analyzer's own
unit-test input. -/
theorem C4_version_rule_amended_witness :
    ("1.2.3" : String).data ≠ [] ∧
    charIsNumeric (("1.2.3" : String).data.headD 'A') = true :=
  C4_version_rule_amended.1
    "google-adk = ( version = \"1.2.3\" )" "1.2.3" rfl

/-- Claim C7: every key in the environment-variable map of any analyzer
result is a member of the detector's fixed allow-list of known ADK
environment-variable names, whatever KEY=VALUE lines the files hold. -/
theorem C7_env_allowlist (d : AdkConfigDetector) (cr : ConfigRoot)
    (info : AdkConfigInfo) (k v : String)
    (h : detect_adk_config d cr = .ok info)
    (hmem : (k, v) ∈ info.environment_variables) :
    k ∈ d.adk_env_vars := by
  rw [detect_adk_config] at h
  have hall := detect_adk_config_go_allowed (find_config_files cr)
    emptyConfigInfo info (by intro p hp; simp [emptyConfigInfo] at hp) h
  exact hall (k, v) hmem

/-- Claim C7 witness: on a root whose `.env` holds an allow-listed key and a
foreign `SECRET` key, only the former lands in the map, and its membership
in the allow-list follows from the theorem. -/
theorem C7_env_allowlist_witness :
    "GOOGLE_API_KEY" ∈ AdkConfigDetector.default.adk_env_vars :=
  C7_env_allowlist AdkConfigDetector.default secretEnvRoot secretEnvInfo
    "GOOGLE_API_KEY" "abc" rfl (by decide)

/-- Claim C10: a discovered config file with `contains_adk_settings` false
contributes nothing to the aggregate — `extract_config_details` returns the
aggregate unchanged — and in particular an `mcp.json` holding only
`mcpServers` and no ADK marker leaves `mcp_server_configured` false. -/
theorem C10_gated_aggregation :
    (∀ (d : AdkConfigDetector) (fi : ConfigFileInfo) (content : String)
      (ci : AdkConfigInfo), fi.contains_adk_settings = false →
      extract_config_details d fi content ci = ci) ∧
    (detect_adk_config AdkConfigDetector.default mcpOnlyRoot).map
      (fun i => (i.mcp_server_configured, i.has_adk_config,
                 i.google_api_configured, i.vertex_ai_configured,
                 i.adk_version, i.environment_variables)) =
      Except.ok (false, false, false, false, none, []) := by
  constructor
  · intro d fi content ci h
    rw [extract_config_details, if_pos h]
  · rfl

/-- Claim C10 witness: the no-contribution law applied to the concrete
`mcp.json` record produced on `mcpOnlyRoot`. -/
theorem C10_gated_aggregation_witness :
    extract_config_details AdkConfigDetector.default
      (analyze_config_content AdkConfigDetector.default "mcp.json"
        "only mcpServers here")
      "only mcpServers here" emptyConfigInfo = emptyConfigInfo :=
  C10_gated_aggregation.1 AdkConfigDetector.default
    (analyze_config_content AdkConfigDetector.default "mcp.json"
      "only mcpServers here")
    "only mcpServers here" emptyConfigInfo rfl

/-- Claim C1: a root holding both a Cargo.toml with a known Rust ADK
dependency marker and a requirements.txt with a known Python ADK dependency
marker is classified Mixed, whatever else (including any MCP marker) the
build descriptor holds. -/
theorem C1_both_manifests_mixed (d : AdkProjectDetector) (r : RootDir)
    (c q : String) (n : Nat)
    (hc : findFile r "Cargo.toml" = some (some c))
    (hq : findFile r "requirements.txt" = some (some q))
    (hrust : check_rust_adk_dependencies d c = true)
    (hpy : check_python_adk_dependencies d q = true)
    (hsize : estimate_project_size d r = .ok n) :
    (detect_adk_project d r).map (fun i => i.project_type) =
      Except.ok AdkProjectType.Mixed := by
  simp [detect_adk_project, hc, hq, hsize, determine_project_type, hrust,
    hpy, Except.map]

/-- Claim C1 witness: a concrete root with both marker-bearing manifests
(one of them even holding the MCP marker `rmcp`) classifies as Mixed. -/
theorem C1_both_manifests_mixed_witness :
    (detect_adk_project AdkProjectDetector.default
      { files := [("Cargo.toml", some "google-adk = \"1.0\"\nrmcp = \"0.6\""),
                  ("requirements.txt", some "google-adk==1.0.0")]
        dirs := []
        tree := Listing.nil }).map (fun i => i.project_type) =
      Except.ok AdkProjectType.Mixed :=
  C1_both_manifests_mixed AdkProjectDetector.default _
    "google-adk = \"1.0\"\nrmcp = \"0.6\"" "google-adk==1.0.0" 0
    rfl rfl rfl rfl rfl

/-- Claim C2: with a readable build descriptor, no requirements manifest,
and an ADK signal (dependency marker in the descriptor or config signal at
the root), classification is McpAdkServer exactly when the descriptor holds
the MCP marker substring `mcp` (the source's `rmcp || mcp` test collapses
to this, since `rmcp` contains `mcp`), and RustAdk otherwise. -/
theorem C2_mcp_marker_classification (d : AdkProjectDetector) (r : RootDir)
    (c : String) (n : Nat)
    (hc : findFile r "Cargo.toml" = some (some c))
    (hq : findFile r "requirements.txt" = none)
    (hadk : (check_rust_adk_dependencies d c || check_adk_config_files r)
      = true)
    (hsize : estimate_project_size d r = .ok n) :
    (detect_adk_project d r).map (fun i => i.project_type) =
      Except.ok (if strContains c.data "mcp" then AdkProjectType.McpAdkServer
                 else AdkProjectType.RustAdk) := by
  cases hmcp : strContains c.data "mcp" with
  | true =>
    simp [detect_adk_project, hc, hq, hsize, determine_project_type, hadk,
      hmcp, Except.map]
  | false =>
    have hrm : strContains c.data "rmcp" = false := by
      cases hr : strContains c.data "rmcp"
      · rfl
      · rw [strContains_mcp_of_rmcp hr] at hmcp
        exact hmcp
    simp [detect_adk_project, hc, hq, hsize, determine_project_type, hadk,
      hmcp, hrm, Except.map]

/-- Claim C2 witness: on the concrete root whose Cargo.toml carries `rmcp`,
classification is McpAdkServer. -/
theorem C2_mcp_marker_classification_witness :
    (detect_adk_project AdkProjectDetector.default mcpCargoRoot).map
      (fun i => i.project_type) =
      Except.ok
        (if strContains
            "[dependencies]\nrmcp = \"0.6.3\"\ngoogle-adk = \"1.0\"".data
            "mcp"
         then AdkProjectType.McpAdkServer else AdkProjectType.RustAdk) :=
  C2_mcp_marker_classification AdkProjectDetector.default mcpCargoRoot
    "[dependencies]\nrmcp = \"0.6.3\"\ngoogle-adk = \"1.0\"" 0
    rfl rfl rfl rfl

/-- Claim C9: when a classifier result has neither manifest flag set, its
dependency flag is false as well, and the verdict is PythonAdk exactly when
the config signal is set (otherwise None): the decision table's
`(false, false)` branch can never produce its None fallback, since reaching
it needs the config signal. -/
theorem C9_no_manifests_no_deps (d : AdkProjectDetector) (r : RootDir)
    (info : AdkProjectInfo)
    (h : detect_adk_project d r = .ok info)
    (hc : info.has_cargo_toml = false)
    (hq : info.has_requirements_txt = false) :
    info.has_adk_dependencies = false ∧
    info.project_type =
      (if info.has_adk_config then AdkProjectType.PythonAdk
       else AdkProjectType.None) := by
  rw [detect_adk_project] at h
  cases hsz : estimate_project_size d r with
  | error e => rw [hsz] at h; cases h
  | ok n =>
    rw [hsz] at h
    dsimp only at h
    injection h with h2
    subst h2
    cases hfc : findFile r "Cargo.toml" with
    | some o => simp [hfc] at hc
    | none =>
      cases hfq : findFile r "requirements.txt" with
      | some o => simp [hfq] at hq
      | none =>
        cases hcfg : check_adk_config_files r with
        | true => simp [determine_project_type, hfc, hfq, hcfg]
        | false => simp [determine_project_type, hfc, hfq, hcfg]

/-- Claim C9 witness: the concrete manifest-free root with a marker
directory; the verdict matches the config-signal conditional. -/
theorem C9_no_manifests_no_deps_witness :
    configOnlyInfo.has_adk_dependencies = false ∧
    configOnlyInfo.project_type =
      (if configOnlyInfo.has_adk_config then AdkProjectType.PythonAdk
       else AdkProjectType.None) :=
  C9_no_manifests_no_deps AdkProjectDetector.default configOnlyRoot
    configOnlyInfo rfl rfl rfl

/-- Claim C3, counterexample: a root whose only entry is a subdirectory
that cannot be listed makes `detect_adk_project` return an error — the
size-estimation walk propagates the failure — although the root itself is
listable, against the claim that only an unlistable root is fatal. -/
theorem C3_counterexample_subdir_aborts :
    detect_adk_project AdkProjectDetector.default unlistableSubdirRoot =
      Except.error () := rfl

/-- Claim C3 (amended): unreadable manifest files at the root do not abort
the classifier — the dependency/version fields stay at their defaults and
the call returns a result whenever the size walk succeeds; but an
unlistable subdirectory met by the size walk aborts `detect_adk_project`
with an error, and an unreadable discovered config file aborts
`detect_adk_config` with an error (shown here for an unreadable `.env`,
the first probed pattern), in addition to the fatal unlistable root. -/
theorem C3_io_failure_semantics_amended :
    (∀ (d : AdkProjectDetector) (r : RootDir) (n : Nat),
      findFile r "Cargo.toml" = some none →
      findFile r "requirements.txt" = some none →
      estimate_project_size d r = .ok n →
      (detect_adk_project d r).map
        (fun i => (i.has_cargo_toml, i.has_requirements_txt,
                   i.has_adk_dependencies, i.adk_version)) =
        Except.ok (true, true, false, none)) ∧
    (∀ (d : AdkProjectDetector) (files : List (String × Option String))
      (dirs : List String) (nm : String),
      skipDirNames.contains nm = false →
      detect_adk_project d
        ⟨files, dirs, Listing.dir nm Listing.unlistable Listing.nil⟩ =
        Except.error ()) ∧
    (∀ (d : AdkConfigDetector) (cr : ConfigRoot),
      findConfigFile cr ".env" = some none →
      detect_adk_config d cr = Except.error ()) := by
  refine ⟨?_, ?_, ?_⟩
  · intro d r n h1 h2 h3
    simp [detect_adk_project, h1, h2, h3, Except.map]
  · intro d files dirs nm hnm
    have hnm2 : nm ∉ skipDirNames := by simpa using hnm
    simp [detect_adk_project, estimate_project_size, visit_dir, hnm2,
      Nat.not_lt_zero]
  · intro d cr h
    simp [detect_adk_config, find_config_files, configFilePatterns, h,
      detect_adk_config_go]

/-- Claim C3 witness: the three amended facts at concrete inputs — a root
with unreadable manifests still classifies, a root with an unlistable
subdirectory errors, and an unreadable `.env` makes the analyzer error. -/
theorem C3_io_failure_semantics_amended_witness :
    (detect_adk_project AdkProjectDetector.default
        unreadableManifestsRoot).map
      (fun i => (i.has_cargo_toml, i.has_requirements_txt,
                 i.has_adk_dependencies, i.adk_version)) =
        Except.ok (true, true, false, none) ∧
    detect_adk_project AdkProjectDetector.default
      ⟨[], ["adk_agents"], Listing.dir "docs" Listing.unlistable Listing.nil⟩ =
      Except.error () ∧
    detect_adk_config AdkConfigDetector.default unreadableEnvRoot =
      Except.error () :=
  ⟨C3_io_failure_semantics_amended.1 AdkProjectDetector.default
      unreadableManifestsRoot 0 rfl rfl rfl,
   C3_io_failure_semantics_amended.2.1 AdkProjectDetector.default
      [] ["adk_agents"] "docs" rfl,
   C3_io_failure_semantics_amended.2.2 AdkConfigDetector.default
      unreadableEnvRoot rfl⟩

/-- Any `Ok` result of `validate_file` pairs `is_valid = false` with a
nonempty reason and `is_valid = true` with an absent reason. -/
theorem validate_file_reason_ok (v : FileValidator) (f : FileInput)
    (r : FileValidationResult) (h : validate_file v f = .ok r) :
    (r.is_valid = false → ∃ s, r.reason = some s ∧ 0 < s.length) ∧
    (r.is_valid = true → r.reason = none) := by
  rw [validate_file] at h
  split at h
  · injection h with h2
    subst h2
    exact ⟨fun _ => ⟨_, rfl, by decide⟩, fun hv => by cases hv⟩
  · split at h
    · injection h with h2
      subst h2
      exact ⟨fun _ => ⟨_, rfl, by decide⟩, fun hv => by cases hv⟩
    · split at h
      · cases h
      · split at h
        · injection h with h2
          subst h2
          exact ⟨fun _ => ⟨_, rfl, by decide⟩, fun hv => by cases hv⟩
        · split at h
          · injection h with h2
            subst h2
            refine ⟨fun _ => ⟨_, rfl, ?_⟩, fun hv => by cases hv⟩
            exact append_length_pos " bytes"
              (append_length_pos _ (by decide))
          · split at h
            · injection h with h2
              subst h2
              refine ⟨fun _ => ⟨_, rfl, ?_⟩, fun hv => by cases hv⟩
              exact append_length_pos ")"
                (append_length_pos _
                  (append_length_pos " bytes (max: "
                    (append_length_pos _ (by decide))))
            · split at h
              · injection h with h2
                subst h2
                exact ⟨fun _ => ⟨_, rfl, by decide⟩, fun hv => by cases hv⟩
              · injection h with h2
                subst h2
                constructor
                · intro hv
                  cases hv
                · intro _
                  rfl

/-- Claim C5, counterexample: an existing regular file with in-bounds size
and an allow-listed extension is nonetheless rejected when it matches an
exclusion pattern — `target/main.rs` at 100 bytes satisfies every condition
of the claim yet `is_valid` is false. -/
theorem C5_counterexample_excluded_file :
    validate_file FileValidator.default
      ⟨"target/main.rs", true, true, some 100⟩ =
      Except.ok ⟨"target/main.rs", false, 100, FileType.Rust,
        some "File matches excluded pattern"⟩ ∧
    FileValidator.default.min_file_size ≤ 100 ∧
    100 ≤ FileValidator.default.max_file_size ∧
    is_allowed_file_type FileValidator.default "target/main.rs" = true :=
  ⟨rfl, by decide, by decide, rfl⟩

/-- Claim C5 (amended): for an existing regular file with readable metadata
that matches no exclusion pattern, in-bounds size (boundaries inclusive)
and allow-listed extension give `is_valid = true`; each singly violated
constraint — too small, too large, type not allowed, and (the amendment)
matching an exclusion pattern — gives `is_valid = false` with the reason
naming that constraint. -/
theorem C5_validity_conditions_amended (v : FileValidator) (f : FileInput)
    (size : Nat) :
    (f.pathExists = true → f.isFile = true → f.meta = some size →
      is_excluded_file v f.path = false →
      v.min_file_size ≤ size → size ≤ v.max_file_size →
      is_allowed_file_type v f.path = true →
      validate_file v f =
        .ok ⟨f.path, true, size, determine_file_type f.path, none⟩) ∧
    (f.pathExists = true → f.isFile = true → f.meta = some size →
      is_excluded_file v f.path = false →
      size < v.min_file_size →
      validate_file v f =
        .ok ⟨f.path, false, size, determine_file_type f.path,
             some ("File too small: " ++ toString size ++ " bytes")⟩) ∧
    (f.pathExists = true → f.isFile = true → f.meta = some size →
      is_excluded_file v f.path = false →
      v.min_file_size ≤ size → v.max_file_size < size →
      validate_file v f =
        .ok ⟨f.path, false, size, determine_file_type f.path,
             some ("File too large: " ++ toString size ++ " bytes (max: " ++
                   toString v.max_file_size ++ ")")⟩) ∧
    (f.pathExists = true → f.isFile = true → f.meta = some size →
      is_excluded_file v f.path = false →
      v.min_file_size ≤ size → size ≤ v.max_file_size →
      is_allowed_file_type v f.path = false →
      validate_file v f =
        .ok ⟨f.path, false, size, determine_file_type f.path,
             some "File type not allowed"⟩) ∧
    (f.pathExists = true → f.isFile = true → f.meta = some size →
      is_excluded_file v f.path = true →
      validate_file v f =
        .ok ⟨f.path, false, size, determine_file_type f.path,
             some "File matches excluded pattern"⟩) := by
  refine ⟨?_, ?_, ?_, ?_, ?_⟩
  · intro h1 h2 h3 h4 h5 h6 h7
    have n1 : ¬ size < v.min_file_size := Nat.not_lt.mpr h5
    have n2 : ¬ v.max_file_size < size := Nat.not_lt.mpr h6
    simp [validate_file, h1, h2, h3, h4, h7, n1, n2]
  · intro h1 h2 h3 h4 h5
    simp [validate_file, h1, h2, h3, h4, h5]
  · intro h1 h2 h3 h4 h5 h6
    have n1 : ¬ size < v.min_file_size := Nat.not_lt.mpr h5
    simp [validate_file, h1, h2, h3, h4, h6, n1]
  · intro h1 h2 h3 h4 h5 h6 h7
    have n1 : ¬ size < v.min_file_size := Nat.not_lt.mpr h5
    have n2 : ¬ v.max_file_size < size := Nat.not_lt.mpr h6
    simp [validate_file, h1, h2, h3, h4, h7, n1, n2]
  · intro h1 h2 h3 h4
    simp [validate_file, h1, h2, h3, h4]

/-- Claim C5 witness: the valid branch at a concrete in-bounds `.rs` file. -/
theorem C5_validity_conditions_amended_witness :
    validate_file FileValidator.default ⟨"main.rs", true, true, some 40⟩ =
      Except.ok ⟨"main.rs", true, 40, determine_file_type "main.rs", none⟩ :=
  (C5_validity_conditions_amended FileValidator.default
    ⟨"main.rs", true, true, some 40⟩ 40).1 rfl rfl rfl rfl
    (by decide) (by decide) rfl

/-- Claim C6: in every result of `validate_file` and of `validate_files`,
`is_valid = false` comes with a present, nonempty reason and
`is_valid = true` with an absent reason. -/
theorem C6_reason_invariant :
    (∀ (v : FileValidator) (f : FileInput) (r : FileValidationResult),
      validate_file v f = .ok r →
      (r.is_valid = false → ∃ s, r.reason = some s ∧ 0 < s.length) ∧
      (r.is_valid = true → r.reason = none)) ∧
    (∀ (v : FileValidator) (fs : List FileInput) (r : FileValidationResult),
      r ∈ validate_files v fs →
      (r.is_valid = false → ∃ s, r.reason = some s ∧ 0 < s.length) ∧
      (r.is_valid = true → r.reason = none)) := by
  constructor
  · exact validate_file_reason_ok
  · intro v fs r h
    rw [validate_files] at h
    obtain ⟨f, _, hr⟩ := List.mem_map.mp h
    revert hr
    cases hvf : validate_file v f with
    | ok r0 =>
      intro hr
      dsimp only at hr
      subst hr
      exact validate_file_reason_ok v f r0 hvf
    | error e =>
      intro hr
      dsimp only at hr
      subst hr
      constructor
      · intro _
        refine ⟨_, rfl, ?_⟩
        exact append_length_pos f.path (by decide)
      · intro hv
        cases hv

/-- Claim C6 witness: the invariant applied to the concrete rejection of a
missing file. -/
theorem C6_reason_invariant_witness :
    ∃ s, (some "File does not exist" : Option String) = some s ∧
      0 < s.length :=
  (C6_reason_invariant.1 FileValidator.default
    ⟨"ghost.rs", false, false, none⟩
    ⟨"ghost.rs", false, 0, FileType.Unknown, some "File does not exist"⟩
    rfl).1 rfl

/-- Claim C8: the checks of `validate_file` run in the fixed order
existence, regular file, exclusion pattern, minimum size, maximum size,
allowed type, and the first failure fixes the reason: non-existence wins
over everything, non-file over the rest, an exclusion-pattern match is
reported even when the size is also out of bounds, and a size violation is
reported even when the type is also disallowed. -/
theorem C8_check_order (v : FileValidator) (f : FileInput) (size : Nat) :
    (f.pathExists = false →
      validate_file v f = .ok ⟨f.path, false, 0, FileType.Unknown,
        some "File does not exist"⟩) ∧
    (f.pathExists = true → f.isFile = false →
      validate_file v f = .ok ⟨f.path, false, 0, FileType.Unknown,
        some "Path is not a file"⟩) ∧
    (f.pathExists = true → f.isFile = true → f.meta = some size →
      is_excluded_file v f.path = true →
      (size < v.min_file_size ∨ v.max_file_size < size) →
      validate_file v f = .ok ⟨f.path, false, size,
        determine_file_type f.path, some "File matches excluded pattern"⟩) ∧
    (f.pathExists = true → f.isFile = true → f.meta = some size →
      is_excluded_file v f.path = false →
      size < v.min_file_size → is_allowed_file_type v f.path = false →
      validate_file v f = .ok ⟨f.path, false, size,
        determine_file_type f.path,
        some ("File too small: " ++ toString size ++ " bytes")⟩) ∧
    (f.pathExists = true → f.isFile = true → f.meta = some size →
      is_excluded_file v f.path = false →
      v.min_file_size ≤ size → v.max_file_size < size →
      is_allowed_file_type v f.path = false →
      validate_file v f = .ok ⟨f.path, false, size,
        determine_file_type f.path,
        some ("File too large: " ++ toString size ++ " bytes (max: " ++
              toString v.max_file_size ++ ")")⟩) := by
  refine ⟨?_, ?_, ?_, ?_, ?_⟩
  · intro h1
    simp [validate_file, h1]
  · intro h1 h2
    simp [validate_file, h1, h2]
  · intro h1 h2 h3 h4 _
    simp [validate_file, h1, h2, h3, h4]
  · intro h1 h2 h3 h4 h5 _
    simp [validate_file, h1, h2, h3, h4, h5]
  · intro h1 h2 h3 h4 h5 h6 _
    have n1 : ¬ size < v.min_file_size := Nat.not_lt.mpr h5
    simp [validate_file, h1, h2, h3, h4, h6, n1]

/-- Claim C8 witness: a concrete file that both matches an exclusion
pattern (`*.tmp`) and has out-of-bounds size 0 is rejected with the
exclusion reason. -/
theorem C8_check_order_witness :
    validate_file FileValidator.default ⟨"sub/x.tmp", true, true, some 0⟩ =
      Except.ok ⟨"sub/x.tmp", false, 0, determine_file_type "sub/x.tmp",
        some "File matches excluded pattern"⟩ :=
  (C8_check_order FileValidator.default
    ⟨"sub/x.tmp", true, true, some 0⟩ 0).2.2.1 rfl rfl rfl rfl
    (Or.inl (by decide))
